import Mathlib

/-!
# Verification of `killergraphfuncs.py`

A shallow embedding of the three numerical routines of
`src/Python/killergraphfuncs.py` — `doublej`, `doubleo` and `olrp` — over
exact rational matrices, together with theorems settling the specification
claims about them.

Modelling conventions:

* Dense real matrices become `Matrix (Fin (a+1)) (Fin (b+1)) ℚ` (exact
  arithmetic in place of floating point; dimensions are kept positive so
  that `np.max` over the entries is well defined).
* The external dense solver `scipy.linalg.solve(M, N)` is modelled by
  `solve`, which fails with a singularity error exactly when `M.det = 0`
  and otherwise returns the unique solution `M⁻¹ * N`, realized through the
  adjugate so that the model stays computable.
* The external eigenvalue routine `scipy.linalg.eig` and `math.sqrt` are
  external collaborators; `olrp` therefore receives the quantity it reads
  from them — the largest eigenvalue modulus of `R` (`eigRmax`) and
  `sqrt beta` (`sqbeta`) — as explicit arguments.  The predicate
  `eigAbsMaxValid` says when a rational value is the true largest
  eigenvalue modulus of a matrix.
* Python `while` loops without a bound become structural recursion on a
  fuel counter, with `none` marking a run that did not terminate within
  the fuel; the bounded loops of `doublej` and the `olrp` fallback branch
  recurse on the number of remaining iterations, which the source's own
  counter checks make exact.
* Python exceptions become `Except Err`; `Err` distinguishes the
  singular-matrix error of the solver, the two iteration-limit
  `ValueError`s (each carrying the cap its message names), and the
  `NameError` that `doubleo` hits when its loop body never ran.
-/

namespace KillerGraph

open scoped Matrix

/-- Rational dense matrices, the model of the NumPy arrays in the source. -/
abbrev Mat (a b : ℕ) : Type := Matrix (Fin a) (Fin b) ℚ

/-- The failure modes of the module: `scipy.linalg.solve`'s singular-matrix
error, `doublej`'s iteration `ValueError` naming its cap, `olrp`'s
iteration `ValueError` naming its cap, and the `NameError` raised when
`doubleo` returns names that its skipped loop body never bound. -/
inductive Err where
  | singular : Err
  | convergenceExceeded : ℕ → Err
  | iterationLimit : ℕ → Err
  | nameError : Err
deriving DecidableEq

/-- `np.max` over all entries of a (nonempty) matrix: the signed maximum,
not a maximum of absolute values. -/
def maxEntry {a b : ℕ} (M : Mat (a + 1) (b + 1)) : ℚ :=
  Finset.univ.sup' Finset.univ_nonempty (fun p : Fin (a + 1) × Fin (b + 1) => M p.1 p.2)

/-- The value `scipy.linalg.solve(M, N)` returns on a nonsingular `M`:
the unique `X` with `M * X = N`, written via the adjugate to keep the
model computable. -/
def linSolve {a b : ℕ} (M : Mat a a) (N : Mat a b) : Mat a b :=
  M.det⁻¹ • (M.adjugate * N)

/-- Model of `scipy.linalg.solve(M, N)`: raises the singularity error
exactly when `M` is singular, and otherwise solves `M * X = N`. -/
def solve {a b : ℕ} (M : Mat a a) (N : Mat a b) : Except Err (Mat a b) :=
  if M.det = 0 then .error .singular else .ok (linSolve M N)

/-! ## `doublej`

The source loop is

```
alpha0, gamma0 = a1, b1
diff = 5
n_its = 1
while diff > 1e-15:
    alpha1 = alpha0.dot(alpha0)
    gamma1 = gamma0 + np.dot(alpha0.dot(gamma0), alpha0.T)
    diff = np.max(np.abs(gamma1 - gamma0))
    alpha0, gamma0 = alpha1, gamma1
    n_its += 1
    if n_its > max_it:
        raise ValueError(...)
return gamma1
```

`diff` starts at `5 > 1e-15`, so the body always runs at least once.  On
the pass entered with `n_its = p` the raise fires when `p + 1 > max_it`,
i.e. exactly when `max_it - n_its = 0` at entry; `doublejLoop` therefore
recurses on `remaining = max_it - n_its`, and `doublej` starts it at
`max_it - 1` (the value for `n_its = 1`).  The raise precedes the next
`while` test, so a pass whose `remaining` is `0` raises even when the
`diff` it just computed is within tolerance; the body's computations
before the raise are pure, so dropping them on the raising pass is
observationally exact. -/

/-- One-variable model of the `while` loop of `doublej`.  `remaining` is
`max_it - n_its` at entry of the pass; the raising pass carries the cap
`max_it` into its error message. -/
def doublejLoop {m : ℕ} (max_it : ℕ) :
    Mat (m + 1) (m + 1) → Mat (m + 1) (m + 1) → ℕ → Except Err (Mat (m + 1) (m + 1))
  | _, _, 0 => .error (.convergenceExceeded max_it)
  | alpha0, gamma0, r + 1 =>
    let alpha1 := alpha0 * alpha0
    let gamma1 := gamma0 + alpha0 * gamma0 * alpha0ᵀ
    if maxEntry ((gamma1 - gamma0).map (fun x => |x|)) > (1 : ℚ) / 10 ^ 15 then
      doublejLoop max_it alpha1 gamma1 r
    else
      .ok gamma1

/-- Model of `doublej(a1, b1, max_it)`. -/
def doublej {m : ℕ} (a1 b1 : Mat (m + 1) (m + 1)) (max_it : ℕ) :
    Except Err (Mat (m + 1) (m + 1)) :=
  doublejLoop max_it a1 b1 (max_it - 1)

/-- The pure `(alpha, gamma)` iteration underlying `doublej`: `djPair j`
is the pair the loop state holds after `j` passes, starting from
`(a1, b1)`. -/
def djPair {m : ℕ} (a1 b1 : Mat (m + 1) (m + 1)) :
    ℕ → Mat (m + 1) (m + 1) × Mat (m + 1) (m + 1)
  | 0 => (a1, b1)
  | j + 1 =>
    let p := djPair a1 b1 j
    (p.1 * p.1, p.2 + p.1 * p.2 * p.1ᵀ)

/-- The convergence metric computed on pass `j + 1` of `doublej`:
`np.max(np.abs(gamma_{j+1} - gamma_j))`. -/
def djDiff {m : ℕ} (a1 b1 : Mat (m + 1) (m + 1)) (j : ℕ) : ℚ :=
  maxEntry (((djPair a1 b1 (j + 1)).2 - (djPair a1 b1 j).2).map (fun x => |x|))

/-! ## `doubleo`

The source is

```
a0 = A.T
b0 = C.T.dot(solve(R, C))
g0 = Q
dd = 1
ss = max(A.shape)
v = np.eye(ss)
while dd > tol:
    a1 = a0.dot(solve(v + np.dot(b0, g0), a0))
    b1 = b0 + a0.dot(solve(v + np.dot(b0, g0), b0.dot(a0.T)))
    g1 = g0 + np.dot(a0.T.dot(g0), solve(v + b0.dot(g0), a0))
    k1 = np.dot(A.dot(g1), solve(np.dot(C, g1.T).dot(C.T) + R.T, C).T)
    k0 = np.dot(A.dot(g0), solve(np.dot(C, g0.T).dot(C.T) + R.T, C).T)
    a0 = a1; b0 = b1; g0 = g1
    dd = np.max(k1 - k0)
return k1, g1
```

`b0` is computed before the loop test, so a singular `R` raises before
anything else.  `dd` starts at `1`: for `tol ≥ 1` the loop body never
runs and `return k1, g1` raises a `NameError` because `k1` and `g1` were
never bound — modelled by `Err.nameError`.  The `while` loop has no
iteration cap; it is run on a fuel counter, `none` standing for a run
that has not terminated within the fuel. -/

/-- One pass of the `doubleo` loop body.  The state `(a0, b0, g0)` is the
triple of loop-carried matrices; the result also carries the candidate
gains `k1` (from the updated `g1`) and `k0` (from the incoming `g0`).
Solves fail left-to-right exactly as in the source. -/
def doubleoBody {m k : ℕ} (A : Mat (m + 1) (m + 1)) (C : Mat (k + 1) (m + 1))
    (R : Mat (k + 1) (k + 1))
    (st : Mat (m + 1) (m + 1) × Mat (m + 1) (m + 1) × Mat (m + 1) (m + 1)) :
    Except Err (Mat (m + 1) (m + 1) × Mat (m + 1) (m + 1) × Mat (m + 1) (m + 1) ×
      Mat (m + 1) (k + 1) × Mat (m + 1) (k + 1)) := do
  let a0 := st.1
  let b0 := st.2.1
  let g0 := st.2.2
  let v : Mat (m + 1) (m + 1) := 1
  let s1 ← solve (v + b0 * g0) a0
  let a1 := a0 * s1
  let s2 ← solve (v + b0 * g0) (b0 * a0ᵀ)
  let b1 := b0 + a0 * s2
  let s3 ← solve (v + b0 * g0) a0
  let g1 := g0 + (a0ᵀ * g0) * s3
  let s4 ← solve (C * g1ᵀ * Cᵀ + Rᵀ) C
  let k1 := (A * g1) * s4ᵀ
  let s5 ← solve (C * g0ᵀ * Cᵀ + Rᵀ) C
  let k0 := (A * g0) * s5ᵀ
  return (a1, b1, g1, k1, k0)

/-- The `while dd > tol` loop of `doubleo`, on a fuel counter. -/
def doubleoLoop {m k : ℕ} (A : Mat (m + 1) (m + 1)) (C : Mat (k + 1) (m + 1))
    (R : Mat (k + 1) (k + 1)) (tol : ℚ) :
    ℕ → Mat (m + 1) (m + 1) × Mat (m + 1) (m + 1) × Mat (m + 1) (m + 1) →
      Option (Except Err (Mat (m + 1) (k + 1) × Mat (m + 1) (m + 1)))
  | 0, _ => none
  | fuel + 1, st =>
    match doubleoBody A C R st with
    | .error e => some (.error e)
    | .ok (a1, b1, g1, k1, k0) =>
      if maxEntry (k1 - k0) > tol then doubleoLoop A C R tol fuel (a1, b1, g1)
      else some (.ok (k1, g1))

/-- Model of `doubleo(A, C, Q, R, tol)`.  The source default for `tol` is
`1e-15`. -/
def doubleo {m k : ℕ} (A : Mat (m + 1) (m + 1)) (C : Mat (k + 1) (m + 1))
    (Q : Mat (m + 1) (m + 1)) (R : Mat (k + 1) (k + 1)) (tol : ℚ) (fuel : ℕ) :
    Option (Except Err (Mat (m + 1) (k + 1) × Mat (m + 1) (m + 1))) :=
  match solve R C with
  | .error e => some (.error e)
  | .ok s =>
    let a0 := Aᵀ
    let b0 := Cᵀ * s
    let g0 := Q
    if (1 : ℚ) > tol then doubleoLoop A C R tol fuel (a0, b0, g0)
    else some (.error .nameError)

/-! ## `olrp`

The source resolves `W=None` to a zero matrix, then branches on
`np.max(np.abs(eig(R)[0])) > 1e-5`:

* primary branch (`R` numerically nonsingular): rescale
  `A = sqrt(beta) * (A - B.dot(solve(R, W.T)))`, `B = sqrt(beta) * B`,
  `Q = Q - W.dot(solve(R, W.T))`, call `doubleo(A.T, B.T, Q, R)` and
  return `(k.T + solve(R, W.T), s)`;
* fallback branch: `p0 = -0.1 * np.eye(m)`, then
  `for it in range(max_iter):` compute `f0`, `p1`, `f1`, set
  `dd = np.max(f1 - f0)`, `p0 = p1`, and `break` when `dd > tol`; the
  `for`'s `else` raises the iteration-limit `ValueError` naming
  `max_iter`; after the loop `f, p = f1, p1`.

Note the `break` fires when `dd > tol`, i.e. the loop *returns* on a
metric above tolerance and *raises* when every pass stays within it.

`eig(R)` and `math.sqrt(beta)` are external collaborators; `olrp` takes
their outputs as the arguments `eigRmax` (the largest eigenvalue modulus
of `R` that `eig` reports) and `sqbeta` (`sqrt(beta)`). -/

/-- The fallback value-iteration `for` loop of `olrp`, by recursion on
the number of remaining passes (initially `max_iter`); exhausting them
is the `for`'s `else` clause. -/
def olrpLoop {m k : ℕ} (beta tol : ℚ) (A : Mat (m + 1) (m + 1)) (B : Mat (m + 1) (k + 1))
    (Q : Mat (m + 1) (m + 1)) (R : Mat (k + 1) (k + 1)) (W : Mat (m + 1) (k + 1))
    (max_iter : ℕ) :
    ℕ → Mat (m + 1) (m + 1) → Except Err (Mat (k + 1) (m + 1) × Mat (m + 1) (m + 1))
  | 0, _ => .error (.iterationLimit max_iter)
  | r + 1, p0 => do
    let f0 ← solve (R + beta • (Bᵀ * p0 * B)) (beta • (Bᵀ * p0 * A) + Wᵀ)
    let p1 := beta • (Aᵀ * p0 * A) + Q - (beta • (Aᵀ * p0 * B) + W) * f0
    let f1 ← solve (R + beta • (Bᵀ * p1 * B)) (beta • (Bᵀ * p1 * A) + Wᵀ)
    let dd := maxEntry (f1 - f0)
    if dd > tol then pure (f1, p1) else olrpLoop beta tol A B Q R W max_iter r p1

/-- Model of `olrp(beta, A, B, Q, R, W, tol, max_iter)`.  `eigRmax` is
the value `np.max(np.abs(eig(R)[0]))` reported by the external
eigenvalue routine, and `sqbeta` is `math.sqrt(beta)`; source defaults
are `W=None` (`W?` = `none`), `tol=1e-6`, `max_iter=1000`. -/
def olrp {m k : ℕ} (eigRmax sqbeta beta : ℚ) (A : Mat (m + 1) (m + 1))
    (B : Mat (m + 1) (k + 1)) (Q : Mat (m + 1) (m + 1)) (R : Mat (k + 1) (k + 1))
    (W? : Option (Mat (m + 1) (k + 1))) (tol : ℚ) (max_iter : ℕ) (fuel : ℕ) :
    Option (Except Err (Mat (k + 1) (m + 1) × Mat (m + 1) (m + 1))) :=
  let W := W?.getD 0
  if eigRmax > (1 : ℚ) / 10 ^ 5 then
    match solve R Wᵀ with
    | .error e => some (.error e)
    | .ok s1 =>
      let A1 := sqbeta • (A - B * s1)
      let B1 := sqbeta • B
      match solve R Wᵀ with
      | .error e => some (.error e)
      | .ok s2 =>
        let Q1 := Q - W * s2
        match doubleo A1ᵀ B1ᵀ Q1 R ((1 : ℚ) / 10 ^ 15) fuel with
        | none => none
        | some (.error e) => some (.error e)
        | some (.ok ks) =>
          match solve R Wᵀ with
          | .error e => some (.error e)
          | .ok s3 => some (.ok (ks.1ᵀ + s3, ks.2))
  else
    some (olrpLoop beta tol A B Q R W max_iter max_iter ((-(1 / 10) : ℚ) • 1))

/-! ## Eigenvalues

The branch test of `olrp` reads the complex eigenvalues of `R` from the
external routine `scipy.linalg.eig`.  `isEigenvalueC` is the textbook
notion those eigenvalues satisfy, and `eigAbsMaxValid R e` says that the
rational `e` is exactly the largest eigenvalue modulus of `R` — the
correctness condition on the `eigRmax` argument of `olrp`. -/

/-- `μ : ℂ` is an eigenvalue of the rational matrix `R`. -/
def isEigenvalueC {a : ℕ} (R : Mat a a) (μ : ℂ) : Prop :=
  (R.map (fun q => (q : ℂ)) - μ • 1).det = 0

/-- `e` is the largest eigenvalue modulus of `R`: some eigenvalue
attains it and none exceeds it. -/
def eigAbsMaxValid {a : ℕ} (R : Mat a a) (e : ℚ) : Prop :=
  (∃ μ, isEigenvalueC R μ ∧ Complex.abs μ = (e : ℝ)) ∧
    ∀ μ, isEigenvalueC R μ → Complex.abs μ ≤ (e : ℝ)

/-! ## General lemmas about the primitives -/

theorem maxEntry_zero {a b : ℕ} : maxEntry (0 : Mat (a + 1) (b + 1)) = 0 := by
  simp [maxEntry]

theorem mapAbs_zero {a b : ℕ} :
    ((0 : Mat (a + 1) (b + 1)).map (fun x => |x|)) = 0 :=
  Matrix.map_zero _ abs_zero

theorem linSolve_mul {a b : ℕ} (M : Mat a a) (N : Mat a b) (h : M.det ≠ 0) :
    M * linSolve M N = N := by
  rw [linSolve, Matrix.mul_smul, ← Matrix.mul_assoc, Matrix.mul_adjugate,
    Matrix.smul_mul, Matrix.one_mul, smul_smul, inv_mul_cancel₀ h, one_smul]

theorem solve_of_det_ne {a b : ℕ} (M : Mat a a) (N : Mat a b) (h : M.det ≠ 0) :
    solve M N = .ok (linSolve M N) := by
  simp [solve, h]

theorem solve_of_det_eq {a b : ℕ} (M : Mat a a) (N : Mat a b) (h : M.det = 0) :
    solve M N = .error .singular := by
  simp [solve, h]

theorem solve_eq_ok {a b : ℕ} {M : Mat a a} {N X : Mat a b} :
    solve M N = .ok X ↔ M.det ≠ 0 ∧ X = linSolve M N := by
  constructor
  · intro h
    by_cases hd : M.det = 0
    · rw [solve_of_det_eq M N hd] at h
      exact absurd h (by simp)
    · rw [solve_of_det_ne M N hd] at h
      exact ⟨hd, (Except.ok.injEq _ _ ▸ h).symm⟩
  · rintro ⟨hd, rfl⟩
    exact solve_of_det_ne M N hd

theorem linSolve_one {a b : ℕ} (N : Mat a b) : linSolve 1 N = N := by
  simp [linSolve, Matrix.det_one, Matrix.adjugate_one]

theorem linSolve_zero {a b : ℕ} (M : Mat a a) : linSolve M (0 : Mat a b) = 0 := by
  simp [linSolve]

theorem linSolve_fin_one (M N : Mat 1 1) : linSolve M N = (M.det)⁻¹ • N := by
  rw [linSolve, Matrix.adjugate_fin_one, Matrix.one_mul]

theorem solve_one {a b : ℕ} (N : Mat a b) : solve (1 : Mat a a) N = .ok N := by
  simp [solve, linSolve_one]

theorem solve_smul_neg :
    solve ((-(1 / 10) : ℚ) • (1 : Mat 1 1)) ((-(1 / 10) : ℚ) • (1 : Mat 1 1)) = .ok 1 := by
  rw [solve, if_neg, linSolve_fin_one]
  · rw [Matrix.det_smul, Matrix.det_one]
    norm_num
    rw [smul_smul]
    norm_num
  · rw [Matrix.det_smul, Matrix.det_one]
    norm_num

theorem bindError {α β : Type _} (e : Err) (f : α → Except Err β) :
    (Except.error e : Except Err α) >>= f = .error e := rfl

theorem bindOk {α β : Type _} (a : α) (f : α → Except Err β) :
    (Except.ok a : Except Err α) >>= f = f a := rfl

/-! ## Lemmas about the `doublej` loop -/

theorem doublejLoop_zero {m : ℕ} (max_it : ℕ) (alpha0 gamma0 : Mat (m + 1) (m + 1)) :
    doublejLoop max_it alpha0 gamma0 0 = .error (.convergenceExceeded max_it) := rfl

/-- Unfolding of a non-raising pass at an arbitrary loop state. -/
theorem doublejLoop_succ_eq {m : ℕ} (max_it : ℕ) (alpha0 gamma0 : Mat (m + 1) (m + 1))
    (r : ℕ) :
    doublejLoop max_it alpha0 gamma0 (r + 1) =
      if maxEntry (((gamma0 + alpha0 * gamma0 * alpha0ᵀ) - gamma0).map (fun x => |x|)) >
          (1 : ℚ) / 10 ^ 15 then
        doublejLoop max_it (alpha0 * alpha0) (gamma0 + alpha0 * gamma0 * alpha0ᵀ) r
      else
        .ok (gamma0 + alpha0 * gamma0 * alpha0ᵀ) := rfl

/-- Unfolding of a non-raising pass, phrased on the pure iteration. -/
theorem doublejLoop_succ {m : ℕ} (max_it : ℕ) (a1 b1 : Mat (m + 1) (m + 1)) (j r : ℕ) :
    doublejLoop max_it (djPair a1 b1 j).1 (djPair a1 b1 j).2 (r + 1) =
      if djDiff a1 b1 j > (1 : ℚ) / 10 ^ 15 then
        doublejLoop max_it (djPair a1 b1 (j + 1)).1 (djPair a1 b1 (j + 1)).2 r
      else
        .ok (djPair a1 b1 (j + 1)).2 := rfl

/-- The loop raises from the state after `j` passes iff every one of the
next `r` diffs stays above tolerance. -/
theorem doublejLoop_error_iff {m : ℕ} (max_it : ℕ) (a1 b1 : Mat (m + 1) (m + 1)) :
    ∀ r j, doublejLoop max_it (djPair a1 b1 j).1 (djPair a1 b1 j).2 r =
        .error (.convergenceExceeded max_it) ↔
      ∀ i < r, djDiff a1 b1 (j + i) > (1 : ℚ) / 10 ^ 15 := by
  intro r
  induction r with
  | zero =>
    intro j
    simp [doublejLoop_zero]
  | succ r ih =>
    intro j
    rw [doublejLoop_succ]
    by_cases h : djDiff a1 b1 j > (1 : ℚ) / 10 ^ 15
    · rw [if_pos h, ih (j + 1)]
      constructor
      · intro hall i hi
        rcases Nat.eq_zero_or_pos i with rfl | hpos
        · simpa using h
        · obtain ⟨i', rfl⟩ := Nat.exists_eq_add_of_lt hpos
          have := hall i' (by omega)
          simpa [Nat.add_comm, Nat.add_assoc, Nat.add_left_comm] using this
      · intro hall i hi
        have := hall (i + 1) (by omega)
        simpa [Nat.add_comm, Nat.add_assoc, Nat.add_left_comm] using this
    · rw [if_neg h]
      constructor
      · intro hcontra
        exact absurd hcontra (by simp)
      · intro hall
        exact absurd (hall 0 (by omega)) (by simpa using h)

/-- If the first in-budget pass whose diff is within tolerance is pass
`j + i + 1`, the loop returns the gamma of that pass. -/
theorem doublejLoop_ok {m : ℕ} (max_it : ℕ) (a1 b1 : Mat (m + 1) (m + 1)) :
    ∀ r j i, i < r → djDiff a1 b1 (j + i) ≤ (1 : ℚ) / 10 ^ 15 →
      (∀ i' < i, djDiff a1 b1 (j + i') > (1 : ℚ) / 10 ^ 15) →
      doublejLoop max_it (djPair a1 b1 j).1 (djPair a1 b1 j).2 r =
        .ok (djPair a1 b1 (j + i + 1)).2 := by
  intro r
  induction r with
  | zero =>
    intro j i hi
    omega
  | succ r ih =>
    intro j i hi hle hfirst
    rw [doublejLoop_succ]
    rcases Nat.eq_zero_or_pos i with rfl | hpos
    · rw [if_neg (by simpa using hle)]
    · obtain ⟨i', rfl⟩ := Nat.exists_eq_add_of_lt hpos
      rw [if_pos (by simpa using hfirst 0 hpos)]
      have hle' : djDiff a1 b1 (j + 1 + i') ≤ (1 : ℚ) / 10 ^ 15 := by
        have := hle
        simpa [Nat.add_comm, Nat.add_assoc, Nat.add_left_comm] using this
      have hfirst' : ∀ i'' < i', djDiff a1 b1 (j + 1 + i'') > (1 : ℚ) / 10 ^ 15 := by
        intro i'' hi''
        have := hfirst (i'' + 1) (by omega)
        simpa [Nat.add_comm, Nat.add_assoc, Nat.add_left_comm] using this
      have harg : j + (0 + i' + 1) + 1 = j + 1 + i' + 1 := by omega
      rw [harg]
      exact ih (j + 1) i' (by omega) hle' hfirst'

/-! ## Lemmas about the `doubleo` loop -/

theorem doubleoBody_err1 {m k : ℕ} (A : Mat (m + 1) (m + 1)) (C : Mat (k + 1) (m + 1))
    (R : Mat (k + 1) (k + 1)) (st : Mat (m + 1) (m + 1) × Mat (m + 1) (m + 1) × Mat (m + 1) (m + 1))
    (h1 : (1 + st.2.1 * st.2.2 : Mat (m + 1) (m + 1)).det = 0) :
    doubleoBody A C R st = .error .singular := by
  simp [doubleoBody, solve_of_det_eq _ _ h1, bindError, bindOk]

theorem doubleoBody_err4 {m k : ℕ} (A : Mat (m + 1) (m + 1)) (C : Mat (k + 1) (m + 1))
    (R : Mat (k + 1) (k + 1)) (st : Mat (m + 1) (m + 1) × Mat (m + 1) (m + 1) × Mat (m + 1) (m + 1))
    (h1 : (1 + st.2.1 * st.2.2 : Mat (m + 1) (m + 1)).det ≠ 0)
    (h4 : (C * (st.2.2 + ((st.1)ᵀ * st.2.2) * linSolve (1 + st.2.1 * st.2.2) st.1)ᵀ * Cᵀ +
      Rᵀ).det = 0) :
    doubleoBody A C R st = .error .singular := by
  simp only [doubleoBody, solve_of_det_ne _ _ h1, solve_of_det_eq _ _ h4, bindError, bindOk]

theorem doubleoBody_err5 {m k : ℕ} (A : Mat (m + 1) (m + 1)) (C : Mat (k + 1) (m + 1))
    (R : Mat (k + 1) (k + 1)) (st : Mat (m + 1) (m + 1) × Mat (m + 1) (m + 1) × Mat (m + 1) (m + 1))
    (h1 : (1 + st.2.1 * st.2.2 : Mat (m + 1) (m + 1)).det ≠ 0)
    (h4 : (C * (st.2.2 + ((st.1)ᵀ * st.2.2) * linSolve (1 + st.2.1 * st.2.2) st.1)ᵀ * Cᵀ +
      Rᵀ).det ≠ 0)
    (h5 : (C * (st.2.2)ᵀ * Cᵀ + Rᵀ).det = 0) :
    doubleoBody A C R st = .error .singular := by
  simp only [doubleoBody, solve_of_det_ne _ _ h1, solve_of_det_ne _ _ h4,
    solve_of_det_eq _ _ h5, bindError, bindOk]

/-- Fully reduced success form of one `doubleo` pass. -/
theorem doubleoBody_eq {m k : ℕ} (A : Mat (m + 1) (m + 1)) (C : Mat (k + 1) (m + 1))
    (R : Mat (k + 1) (k + 1)) (st : Mat (m + 1) (m + 1) × Mat (m + 1) (m + 1) × Mat (m + 1) (m + 1))
    (h1 : (1 + st.2.1 * st.2.2 : Mat (m + 1) (m + 1)).det ≠ 0)
    (h4 : (C * (st.2.2 + ((st.1)ᵀ * st.2.2) * linSolve (1 + st.2.1 * st.2.2) st.1)ᵀ * Cᵀ +
      Rᵀ).det ≠ 0)
    (h5 : (C * (st.2.2)ᵀ * Cᵀ + Rᵀ).det ≠ 0) :
    doubleoBody A C R st = .ok
      (st.1 * linSolve (1 + st.2.1 * st.2.2) st.1,
       st.2.1 + st.1 * linSolve (1 + st.2.1 * st.2.2) (st.2.1 * (st.1)ᵀ),
       st.2.2 + ((st.1)ᵀ * st.2.2) * linSolve (1 + st.2.1 * st.2.2) st.1,
       (A * (st.2.2 + ((st.1)ᵀ * st.2.2) * linSolve (1 + st.2.1 * st.2.2) st.1)) *
         (linSolve (C * (st.2.2 + ((st.1)ᵀ * st.2.2) * linSolve (1 + st.2.1 * st.2.2) st.1)ᵀ *
           Cᵀ + Rᵀ) C)ᵀ,
       (A * st.2.2) * (linSolve (C * (st.2.2)ᵀ * Cᵀ + Rᵀ) C)ᵀ) := by
  simp only [doubleoBody, solve_of_det_ne _ _ h1, solve_of_det_ne _ _ h4,
    solve_of_det_ne _ _ h5, bindError, bindOk]
  rfl

/-- Inversion: a successful `doubleo` pass determines every component of
its output by the source's update formulas. -/
theorem doubleoBody_ok_eq {m k : ℕ} {A : Mat (m + 1) (m + 1)} {C : Mat (k + 1) (m + 1)}
    {R : Mat (k + 1) (k + 1)}
    {st : Mat (m + 1) (m + 1) × Mat (m + 1) (m + 1) × Mat (m + 1) (m + 1)}
    {out : Mat (m + 1) (m + 1) × Mat (m + 1) (m + 1) × Mat (m + 1) (m + 1) ×
      Mat (m + 1) (k + 1) × Mat (m + 1) (k + 1)}
    (h : doubleoBody A C R st = .ok out) :
    out = (st.1 * linSolve (1 + st.2.1 * st.2.2) st.1,
       st.2.1 + st.1 * linSolve (1 + st.2.1 * st.2.2) (st.2.1 * (st.1)ᵀ),
       st.2.2 + ((st.1)ᵀ * st.2.2) * linSolve (1 + st.2.1 * st.2.2) st.1,
       (A * (st.2.2 + ((st.1)ᵀ * st.2.2) * linSolve (1 + st.2.1 * st.2.2) st.1)) *
         (linSolve (C * (st.2.2 + ((st.1)ᵀ * st.2.2) * linSolve (1 + st.2.1 * st.2.2) st.1)ᵀ *
           Cᵀ + Rᵀ) C)ᵀ,
       (A * st.2.2) * (linSolve (C * (st.2.2)ᵀ * Cᵀ + Rᵀ) C)ᵀ) := by
  by_cases h1 : (1 + st.2.1 * st.2.2 : Mat (m + 1) (m + 1)).det = 0
  · rw [doubleoBody_err1 A C R st h1] at h
    exact absurd h (by simp)
  by_cases h4 : (C * (st.2.2 + ((st.1)ᵀ * st.2.2) * linSolve (1 + st.2.1 * st.2.2) st.1)ᵀ * Cᵀ +
      Rᵀ).det = 0
  · rw [doubleoBody_err4 A C R st h1 h4] at h
    exact absurd h (by simp)
  by_cases h5 : (C * (st.2.2)ᵀ * Cᵀ + Rᵀ).det = 0
  · rw [doubleoBody_err5 A C R st h1 h4 h5] at h
    exact absurd h (by simp)
  rw [doubleoBody_eq A C R st h1 h4 h5] at h
  exact ((Except.ok.injEq _ _).mp h).symm

theorem doubleoLoop_zero {m k : ℕ} (A : Mat (m + 1) (m + 1)) (C : Mat (k + 1) (m + 1))
    (R : Mat (k + 1) (k + 1)) (tol : ℚ)
    (st : Mat (m + 1) (m + 1) × Mat (m + 1) (m + 1) × Mat (m + 1) (m + 1)) :
    doubleoLoop A C R tol 0 st = none := rfl

theorem doubleoLoop_succ {m k : ℕ} (A : Mat (m + 1) (m + 1)) (C : Mat (k + 1) (m + 1))
    (R : Mat (k + 1) (k + 1)) (tol : ℚ) (fuel : ℕ)
    (st : Mat (m + 1) (m + 1) × Mat (m + 1) (m + 1) × Mat (m + 1) (m + 1)) :
    doubleoLoop A C R tol (fuel + 1) st =
      match doubleoBody A C R st with
      | .error e => some (.error e)
      | .ok (a1, b1, g1, k1, k0) =>
        if maxEntry (k1 - k0) > tol then doubleoLoop A C R tol fuel (a1, b1, g1)
        else some (.ok (k1, g1)) := rfl

/-- More fuel never changes a run of the `doubleo` loop that already
produced an answer: the tolerance test is the only way the loop stops. -/
theorem doubleoLoop_mono {m k : ℕ} (A : Mat (m + 1) (m + 1)) (C : Mat (k + 1) (m + 1))
    (R : Mat (k + 1) (k + 1)) (tol : ℚ) :
    ∀ f1 f2 st r, f1 ≤ f2 → doubleoLoop A C R tol f1 st = some r →
      doubleoLoop A C R tol f2 st = some r := by
  intro f1
  induction f1 with
  | zero =>
    intro f2 st r _ h
    exact absurd h (by simp [doubleoLoop_zero])
  | succ f ih =>
    intro f2 st r hle h
    obtain ⟨f2', rfl⟩ : ∃ f2', f2 = f2' + 1 := ⟨f2 - 1, by omega⟩
    rw [doubleoLoop_succ] at h ⊢
    cases hb : doubleoBody A C R st with
    | error e =>
      rw [hb] at h
      exact h
    | ok out =>
      obtain ⟨a1, b1, g1, k1, k0⟩ := out
      rw [hb] at h
      dsimp only at h ⊢
      by_cases hdd : maxEntry (k1 - k0) > tol
      · simp only [if_pos hdd] at h ⊢
        exact ih f2' (a1, b1, g1) r (by omega) h
      · simp only [if_neg hdd] at h ⊢
        exact h

/-- `doubleo` on a nonsingular `R`: the initial state and guard. -/
theorem doubleo_eq {m k : ℕ} (A : Mat (m + 1) (m + 1)) (C : Mat (k + 1) (m + 1))
    (Q : Mat (m + 1) (m + 1)) (R : Mat (k + 1) (k + 1)) (tol : ℚ) (fuel : ℕ)
    (h : R.det ≠ 0) :
    doubleo A C Q R tol fuel =
      if (1 : ℚ) > tol then doubleoLoop A C R tol fuel (Aᵀ, Cᵀ * linSolve R C, Q)
      else some (.error .nameError) := by
  simp only [doubleo, solve_of_det_ne _ _ h]

/-- `doubleo` on a singular `R`: the pre-loop solve raises. -/
theorem doubleo_singular {m k : ℕ} (A : Mat (m + 1) (m + 1)) (C : Mat (k + 1) (m + 1))
    (Q : Mat (m + 1) (m + 1)) (R : Mat (k + 1) (k + 1)) (tol : ℚ) (fuel : ℕ)
    (h : R.det = 0) :
    doubleo A C Q R tol fuel = some (.error .singular) := by
  simp only [doubleo, solve_of_det_eq _ _ h]

/-- The concrete `doubleo` pass at the all-zero state with `R = 1`. -/
theorem doubleoBody_zero :
    doubleoBody (0 : Mat 1 1) (0 : Mat 1 1) 1 (0, 0, 0) = .ok (0, 0, 0, 0, 0) := by
  simp [doubleoBody, solve, linSolve_zero, bindError, bindOk]

/-- The concrete `doubleo` loop run from the all-zero state converges on
its first pass, for any nonnegative tolerance. -/
theorem doubleoLoop_run_zero (tol : ℚ) (h : 0 ≤ tol) :
    doubleoLoop (0 : Mat 1 1) (0 : Mat 1 1) 1 tol 1 (0, 0, 0) = some (.ok (0, 0)) := by
  have h2 := doubleoLoop_succ (0 : Mat 1 1) (0 : Mat 1 1) 1 tol 0 (0, 0, 0)
  rw [doubleoBody_zero] at h2
  dsimp only at h2
  rw [if_neg (by simp only [sub_self, maxEntry_zero]; exact not_lt.mpr h)] at h2
  exact h2

/-! ## Lemmas about `olrp` -/

theorem olrpLoop_zero {m k : ℕ} (beta tol : ℚ) (A : Mat (m + 1) (m + 1))
    (B : Mat (m + 1) (k + 1)) (Q : Mat (m + 1) (m + 1)) (R : Mat (k + 1) (k + 1))
    (W : Mat (m + 1) (k + 1)) (max_iter : ℕ) (p0 : Mat (m + 1) (m + 1)) :
    olrpLoop beta tol A B Q R W max_iter 0 p0 = .error (.iterationLimit max_iter) := rfl

theorem olrpLoop_succ {m k : ℕ} (beta tol : ℚ) (A : Mat (m + 1) (m + 1))
    (B : Mat (m + 1) (k + 1)) (Q : Mat (m + 1) (m + 1)) (R : Mat (k + 1) (k + 1))
    (W : Mat (m + 1) (k + 1)) (max_iter r : ℕ) (p0 : Mat (m + 1) (m + 1)) :
    olrpLoop beta tol A B Q R W max_iter (r + 1) p0 = (do
      let f0 ← solve (R + beta • (Bᵀ * p0 * B)) (beta • (Bᵀ * p0 * A) + Wᵀ)
      let p1 := beta • (Aᵀ * p0 * A) + Q - (beta • (Aᵀ * p0 * B) + W) * f0
      let f1 ← solve (R + beta • (Bᵀ * p1 * B)) (beta • (Bᵀ * p1 * A) + Wᵀ)
      if maxEntry (f1 - f0) > tol then pure (f1, p1)
      else olrpLoop beta tol A B Q R W max_iter r p1) := rfl

/-- On the primary branch (`eigRmax > 1e-5`) `olrp` is the composition
the source writes: rescale with the solve against `R`, run the Riccati
doubler on the transposed data, and assemble `(Kᵀ + R⁻¹Wᵀ, S)`. -/
theorem olrp_primary_eq {m k : ℕ} (eigRmax sqbeta beta : ℚ) (A : Mat (m + 1) (m + 1))
    (B : Mat (m + 1) (k + 1)) (Q : Mat (m + 1) (m + 1)) (R : Mat (k + 1) (k + 1))
    (W? : Option (Mat (m + 1) (k + 1))) (tol : ℚ) (max_iter fuel : ℕ)
    (h : eigRmax > (1 : ℚ) / 10 ^ 5) :
    olrp eigRmax sqbeta beta A B Q R W? tol max_iter fuel =
      match solve R ((W?.getD 0)ᵀ) with
      | .error e => some (.error e)
      | .ok s =>
        match doubleo ((sqbeta • (A - B * s))ᵀ) ((sqbeta • B)ᵀ) (Q - (W?.getD 0) * s) R
            ((1 : ℚ) / 10 ^ 15) fuel with
        | none => none
        | some (.error e) => some (.error e)
        | some (.ok ks) => some (.ok ((ks.1)ᵀ + s, ks.2)) := by
  simp only [olrp, if_pos h]
  cases hs : solve R ((W?.getD 0)ᵀ) with
  | error e => rfl
  | ok s =>
    cases hd : doubleo ((sqbeta • (A - B * s))ᵀ) ((sqbeta • B)ᵀ) (Q - (W?.getD 0) * s) R
        ((1 : ℚ) / 10 ^ 15) fuel with
    | none => rfl
    | some r =>
      cases r with
      | error e => rfl
      | ok ks => rfl

/-- On the fallback branch (`eigRmax ≤ 1e-5`) `olrp` is the value
iteration started at `p0 = -0.1 * eye(m)`, with no solve against `R`
itself anywhere before or at entry — the equation holds for every `R`,
singular ones included. -/
theorem olrp_fallback_eq {m k : ℕ} (eigRmax sqbeta beta : ℚ) (A : Mat (m + 1) (m + 1))
    (B : Mat (m + 1) (k + 1)) (Q : Mat (m + 1) (m + 1)) (R : Mat (k + 1) (k + 1))
    (W? : Option (Mat (m + 1) (k + 1))) (tol : ℚ) (max_iter fuel : ℕ)
    (h : eigRmax ≤ (1 : ℚ) / 10 ^ 5) :
    olrp eigRmax sqbeta beta A B Q R W? tol max_iter fuel =
      some (olrpLoop beta tol A B Q R (W?.getD 0) max_iter max_iter
        ((-(1 / 10) : ℚ) • (1 : Mat (m + 1) (m + 1)))) := by
  simp only [olrp, if_neg (not_lt.mpr h)]

/-- First pass of the fallback loop on the scalar fixed-point input
`beta = 1`, `A = B = Q = 1`, `R = W = 0`: it computes `f0 = f1 = 1`
(metric `0`, within tolerance) and `p1 = 1`, and therefore continues. -/
theorem olrp_pass1 :
    olrpLoop 1 ((1 : ℚ) / 10 ^ 6) (1 : Mat 1 1) (1 : Mat 1 1) (1 : Mat 1 1) (0 : Mat 1 1)
      (0 : Mat 1 1) 2 2 ((-(1 / 10) : ℚ) • 1) =
    olrpLoop 1 ((1 : ℚ) / 10 ^ 6) (1 : Mat 1 1) (1 : Mat 1 1) (1 : Mat 1 1) (0 : Mat 1 1)
      (0 : Mat 1 1) 2 1 1 := by
  have h := olrpLoop_succ 1 ((1 : ℚ) / 10 ^ 6) (1 : Mat 1 1) (1 : Mat 1 1) (1 : Mat 1 1)
    (0 : Mat 1 1) (0 : Mat 1 1) 2 1 ((-(1 / 10) : ℚ) • 1)
  rw [h]
  simp only [one_smul, Matrix.transpose_one, Matrix.transpose_zero, Matrix.one_mul,
    Matrix.mul_one, zero_add, add_zero]
  rw [solve_smul_neg, bindOk]
  simp only [Matrix.mul_one, add_sub_cancel_left, solve_one, bindOk]
  rw [if_neg]
  norm_num [maxEntry_zero, sub_self]

/-- Second pass of the same run: the iterate sits at the exact fixed
point `p = 1`, `f = 1`, the metric is again `0`, and the exhausted
budget raises the iteration-limit error. -/
theorem olrp_pass2 :
    olrpLoop 1 ((1 : ℚ) / 10 ^ 6) (1 : Mat 1 1) (1 : Mat 1 1) (1 : Mat 1 1) (0 : Mat 1 1)
      (0 : Mat 1 1) 2 1 1 = .error (.iterationLimit 2) := by
  have h := olrpLoop_succ 1 ((1 : ℚ) / 10 ^ 6) (1 : Mat 1 1) (1 : Mat 1 1) (1 : Mat 1 1)
    (0 : Mat 1 1) (0 : Mat 1 1) 2 0 1
  rw [h]
  simp only [one_smul, Matrix.transpose_one, Matrix.transpose_zero, Matrix.one_mul,
    Matrix.mul_one, zero_add, add_zero, solve_one, bindOk, add_sub_cancel_right]
  rw [if_neg]
  · exact olrpLoop_zero 1 ((1 : ℚ) / 10 ^ 6) (1 : Mat 1 1) (1 : Mat 1 1) (1 : Mat 1 1)
      (0 : Mat 1 1) (0 : Mat 1 1) 2 1
  · norm_num [maxEntry_zero, sub_self]

/-! ## A singular matrix with a large eigenvalue

`diag(1, 0)` is singular, yet its eigenvalues are `{0, 1}`, so the
branch test of `olrp` reads a largest eigenvalue modulus of `1 > 1e-5`
for it and picks the primary branch, where the very first solve against
it raises. -/

theorem Rbad_det : (!![1, 0; 0, 0] : Mat 2 2).det = 0 := by
  simp [Matrix.det_fin_two_of]

theorem Rbad_eig (μ : ℂ) :
    isEigenvalueC (!![1, 0; 0, 0] : Mat 2 2) μ ↔ μ = 0 ∨ μ = 1 := by
  simp only [isEigenvalueC, Matrix.det_fin_two, Matrix.sub_apply, Matrix.map_apply,
    Matrix.smul_apply, Matrix.one_apply, smul_eq_mul]
  norm_num [Matrix.cons_val_zero, Matrix.cons_val_one, Matrix.head_cons]
  constructor
  · rintro (h' | h')
    · exact Or.inr (by linear_combination -h')
    · exact Or.inl h'
  · rintro (rfl | rfl) <;> norm_num

theorem Rbad_eigmax : eigAbsMaxValid (!![1, 0; 0, 0] : Mat 2 2) 1 := by
  constructor
  · exact ⟨1, (Rbad_eig 1).mpr (Or.inr rfl), by simp⟩
  · intro μ h
    rcases (Rbad_eig μ).mp h with rfl | rfl <;> simp

/-! ## The claims -/

/-- C2 (amended): `doublej` raises the convergence-exceeded error naming
`max_it` if and only if the entrywise tolerance `1e-15` is not met
within the first `max_it - 1` iterations (the raise precedes the loop's
convergence re-test, so the pass numbered `max_it` always raises); and
whenever the tolerance is first met on an iteration `i + 1 ≤ max_it - 1`
it returns the freshest gamma iterate, the one computed on that pass. -/
theorem claim_C2 {m : ℕ} (a1 b1 : Mat (m + 1) (m + 1)) (max_it : ℕ) :
    (doublej a1 b1 max_it = .error (.convergenceExceeded max_it) ↔
      ∀ i < max_it - 1, djDiff a1 b1 i > (1 : ℚ) / 10 ^ 15) ∧
    (∀ i, i < max_it - 1 → djDiff a1 b1 i ≤ (1 : ℚ) / 10 ^ 15 →
      (∀ i' < i, djDiff a1 b1 i' > (1 : ℚ) / 10 ^ 15) →
      doublej a1 b1 max_it = .ok ((djPair a1 b1 (i + 1)).2)) := by
  constructor
  · have h := doublejLoop_error_iff max_it a1 b1 (max_it - 1) 0
    simpa [doublej] using h
  · intro i hi hle hfirst
    have h := doublejLoop_ok max_it a1 b1 (max_it - 1) 0 i hi (by simpa using hle)
      (by intro i' hi'; simpa using hfirst i' hi')
    simpa [doublej] using h

/-- C2, witness: with `max_it = 3` and zero matrices the tolerance is
met on the first pass and `doublej` returns that pass's gamma. -/
theorem claim_C2_witness : doublej (0 : Mat 1 1) 0 3 = .ok 0 := by
  have h := (claim_C2 (0 : Mat 1 1) 0 3).2 0 (by norm_num)
    (by norm_num [djDiff, djPair, mapAbs_zero, maxEntry_zero])
    (by omega)
  simpa [djPair] using h

/-- C2, counterexample to the claim as stated: with `max_it = 1` and
zero inputs the tolerance `1e-15` is already met on iteration `1`,
which is within the cap, yet `doublej` raises the convergence-exceeded
error instead of returning the freshest gamma iterate. -/
theorem claim_C2_counterexample :
    djDiff (0 : Mat 1 1) 0 0 ≤ (1 : ℚ) / 10 ^ 15 ∧
    doublej (0 : Mat 1 1) 0 1 = .error (.convergenceExceeded 1) := by
  constructor
  · norm_num [djDiff, djPair, mapAbs_zero, maxEntry_zero]
  · rfl

/-- C8: `doublej` maintains a pair `(alpha, gamma)` initialized to
`(a1, b1)`, each pass computes `alpha' = alpha * alpha` and
`gamma' = gamma + alpha * gamma * alphaᵀ` and adopts `(alpha', gamma')`,
and its convergence test is that the maximum absolute entrywise
difference of successive gammas is at most the fixed literal `1e-15`
(no tolerance parameter exists in `doublej`'s signature). -/
theorem claim_C8 {m : ℕ} (a1 b1 alpha0 gamma0 : Mat (m + 1) (m + 1)) (max_it r : ℕ) :
    doublej a1 b1 max_it = doublejLoop max_it a1 b1 (max_it - 1) ∧
    doublejLoop max_it alpha0 gamma0 (r + 1) =
      (if maxEntry (((gamma0 + alpha0 * gamma0 * alpha0ᵀ) - gamma0).map (fun x => |x|)) ≤
          (1 : ℚ) / 10 ^ 15 then
        .ok (gamma0 + alpha0 * gamma0 * alpha0ᵀ)
      else
        doublejLoop max_it (alpha0 * alpha0) (gamma0 + alpha0 * gamma0 * alpha0ᵀ) r) := by
  refine ⟨rfl, ?_⟩
  rw [doublejLoop_succ_eq]
  by_cases h : maxEntry (((gamma0 + alpha0 * gamma0 * alpha0ᵀ) - gamma0).map (fun x => |x|)) ≤
      (1 : ℚ) / 10 ^ 15
  · rw [if_neg (not_lt.mpr h), if_pos h]
  · rw [if_pos (not_le.mp h), if_neg h]

/-- C9: `doublej` is deterministic — two calls on identical inputs give
identical results (outputs and failures alike), there being no state
outside the arguments. -/
theorem claim_C9 {m : ℕ} (a1 b1 a1' b1' : Mat (m + 1) (m + 1)) (mi mi' : ℕ)
    (ha : a1 = a1') (hb : b1 = b1') (hm : mi = mi') :
    doublej a1 b1 mi = doublej a1' b1' mi' := by
  rw [ha, hb, hm]

/-- C9, witness: the two-run agreement at a concrete input. -/
theorem claim_C9_witness : doublej (0 : Mat 1 1) 0 2 = doublej 0 0 2 :=
  claim_C9 0 0 0 0 2 2 rfl rfl rfl

/-- C3: `doubleo` initializes `a0 = Aᵀ`, `b0 = Cᵀ * solve(R, C)`,
`g0 = Q` (the initialization equation below), and every iteration
updates `a1 = a0 (I + b0 g0)⁻¹ a0`,
`b1 = b0 + a0 (I + b0 g0)⁻¹ (b0 a0ᵀ)` and
`g1 = g0 + (a0ᵀ g0) (I + b0 g0)⁻¹ a0`, where each inverse is realized
as the linear solve `linSolve` — the first conjunct is exactly the
statement that `linSolve M N` solves `M * X = N`, and no explicit
inverse matrix is ever formed. -/
theorem claim_C3 {m k : ℕ} (A : Mat (m + 1) (m + 1)) (C : Mat (k + 1) (m + 1))
    (Q : Mat (m + 1) (m + 1)) (R : Mat (k + 1) (k + 1)) (tol : ℚ) (fuel : ℕ)
    (M N : Mat (m + 1) (m + 1))
    (st : Mat (m + 1) (m + 1) × Mat (m + 1) (m + 1) × Mat (m + 1) (m + 1))
    (out : Mat (m + 1) (m + 1) × Mat (m + 1) (m + 1) × Mat (m + 1) (m + 1) ×
      Mat (m + 1) (k + 1) × Mat (m + 1) (k + 1))
    (hR : R.det ≠ 0) (hM : M.det ≠ 0) (hbody : doubleoBody A C R st = .ok out) :
    M * linSolve M N = N ∧
    doubleo A C Q R tol fuel =
      (if (1 : ℚ) > tol then doubleoLoop A C R tol fuel (Aᵀ, Cᵀ * linSolve R C, Q)
       else some (.error .nameError)) ∧
    out.1 = st.1 * linSolve (1 + st.2.1 * st.2.2) st.1 ∧
    out.2.1 = st.2.1 + st.1 * linSolve (1 + st.2.1 * st.2.2) (st.2.1 * (st.1)ᵀ) ∧
    out.2.2.1 = st.2.2 + ((st.1)ᵀ * st.2.2) * linSolve (1 + st.2.1 * st.2.2) st.1 := by
  have hout := doubleoBody_ok_eq hbody
  subst hout
  exact ⟨linSolve_mul M N hM, doubleo_eq A C Q R tol fuel hR, rfl, rfl, rfl⟩

/-- C3, witness: the pass, the initialization and the solve at a
concrete input (`A = C = Q = 0`, `R = 1`, state all zero). -/
theorem claim_C3_witness :
    (1 : Mat 1 1).det ≠ 0 ∧
    doubleoBody (0 : Mat 1 1) (0 : Mat 1 1) 1 (0, 0, 0) = .ok (0, 0, 0, 0, 0) ∧
    (1 : Mat 1 1) * linSolve 1 (0 : Mat 1 1) = 0 ∧
    doubleo (0 : Mat 1 1) (0 : Mat 1 1) 0 1 (1 / 2) 1 = some (.ok (0, 0)) := by
  have hdet : (1 : Mat 1 1).det ≠ 0 := by simp
  have h := claim_C3 (0 : Mat 1 1) (0 : Mat 1 1) 0 1 (1 / 2) 1 1 0 (0, 0, 0) (0, 0, 0, 0, 0)
    (by simp) hdet doubleoBody_zero
  refine ⟨hdet, doubleoBody_zero, h.1, ?_⟩
  rw [h.2.1, if_pos (by norm_num)]
  rw [show ((0 : Mat 1 1)ᵀ, (0 : Mat 1 1)ᵀ * linSolve 1 (0 : Mat 1 1), (0 : Mat 1 1)) =
    ((0 : Mat 1 1), (0 : Mat 1 1), (0 : Mat 1 1)) from by simp [linSolve_zero]]
  exact doubleoLoop_run_zero (1 / 2) (by norm_num)

/-- C4: in every `doubleo` iteration the candidate gains are
`k1 = A g1 (solve(C g1ᵀ Cᵀ + Rᵀ, C))ᵀ` and `k0` by the same formula
from the pre-update `g0`; the loop stops exactly when the signed metric
`max (k1 - k0)` (no absolute value) is at most `tol`, returning the
freshest pair `(k1, g1)`, and there is no iteration cap — a run that
has produced an answer is never changed by allowing more iterations. -/
theorem claim_C4 {m k : ℕ} (A : Mat (m + 1) (m + 1)) (C : Mat (k + 1) (m + 1))
    (R : Mat (k + 1) (k + 1)) (tol : ℚ) :
    (∀ st out, doubleoBody A C R st = .ok out →
      out.2.2.2.1 = (A * out.2.2.1) * (linSolve (C * (out.2.2.1)ᵀ * Cᵀ + Rᵀ) C)ᵀ ∧
      out.2.2.2.2 = (A * st.2.2) * (linSolve (C * (st.2.2)ᵀ * Cᵀ + Rᵀ) C)ᵀ) ∧
    (∀ fuel st, doubleoLoop A C R tol (fuel + 1) st =
      match doubleoBody A C R st with
      | .error e => some (.error e)
      | .ok (a1, b1, g1, k1, k0) =>
        if maxEntry (k1 - k0) ≤ tol then some (.ok (k1, g1))
        else doubleoLoop A C R tol fuel (a1, b1, g1)) ∧
    (∀ f1 f2 st r, f1 ≤ f2 → doubleoLoop A C R tol f1 st = some r →
      doubleoLoop A C R tol f2 st = some r) := by
  refine ⟨?_, ?_, doubleoLoop_mono A C R tol⟩
  · intro st out hbody
    have hout := doubleoBody_ok_eq hbody
    subst hout
    exact ⟨rfl, rfl⟩
  · intro fuel st
    rw [doubleoLoop_succ]
    cases doubleoBody A C R st with
    | error e => rfl
    | ok out =>
      obtain ⟨a1, b1, g1, k1, k0⟩ := out
      dsimp only
      by_cases hdd : maxEntry (k1 - k0) ≤ tol
      · rw [if_neg (not_lt.mpr hdd), if_pos hdd]
      · rw [if_pos (not_le.mp hdd), if_neg hdd]

/-- C4, witness: the gain formulas at a successful concrete pass, and
fuel-irrelevance of a finished concrete run. -/
theorem claim_C4_witness :
    (0 : Mat 1 1) =
      ((0 : Mat 1 1) * 0) * (linSolve ((0 : Mat 1 1) * (0 : Mat 1 1)ᵀ * (0 : Mat 1 1)ᵀ +
        (1 : Mat 1 1)ᵀ) (0 : Mat 1 1))ᵀ ∧
    doubleoLoop (0 : Mat 1 1) (0 : Mat 1 1) 1 (1 / 2) 2 (0, 0, 0) = some (.ok (0, 0)) := by
  have h := claim_C4 (0 : Mat 1 1) (0 : Mat 1 1) 1 (1 / 2)
  refine ⟨?_, h.2.2 1 2 (0, 0, 0) (.ok (0, 0)) (by norm_num) (doubleoLoop_run_zero (1 / 2) (by norm_num))⟩
  have hk := (h.1 (0, 0, 0) (0, 0, 0, 0, 0) doubleoBody_zero).1
  rw [show ((0, 0, 0, 0, 0) : Mat 1 1 × Mat 1 1 × Mat 1 1 × Mat 1 1 × Mat 1 1).2.2.2.1 =
    (0 : Mat 1 1) from rfl] at hk
  exact hk

/-- C10 (amended): for every `tol ≥ 1` `doubleo` never returns a
result, since `dd` starts at `1` and the loop guard `dd > tol` fails
before any iteration while `k1, g1` are only bound inside the loop
body; when the initial `solve(R, C)` succeeds (`R` nonsingular) the
call fails with the unbound-variable `NameError` at the `return`, and
when `R` is singular that earlier solve's singularity error propagates
instead. -/
theorem claim_C10 {m k : ℕ} (A : Mat (m + 1) (m + 1)) (C : Mat (k + 1) (m + 1))
    (Q : Mat (m + 1) (m + 1)) (R : Mat (k + 1) (k + 1)) (tol : ℚ) (fuel : ℕ)
    (h : (1 : ℚ) ≤ tol) :
    (∀ res, doubleo A C Q R tol fuel ≠ some (.ok res)) ∧
    (R.det ≠ 0 → doubleo A C Q R tol fuel = some (.error .nameError)) ∧
    (R.det = 0 → doubleo A C Q R tol fuel = some (.error .singular)) := by
  by_cases hR : R.det = 0
  · rw [doubleo_singular A C Q R tol fuel hR]
    exact ⟨fun res hres => by simp at hres, fun hne => absurd hR hne, fun _ => rfl⟩
  · rw [doubleo_eq A C Q R tol fuel hR, if_neg (not_lt.mpr h)]
    exact ⟨fun res hres => by simp at hres, fun _ => rfl, fun heq => absurd heq hR⟩

/-- C10, witness: at `tol = 1` with nonsingular `R = 1` the call fails
with the unbound-variable error. -/
theorem claim_C10_witness :
    doubleo (0 : Mat 1 1) (0 : Mat 1 1) 0 1 1 5 = some (.error .nameError) :=
  (claim_C10 (0 : Mat 1 1) (0 : Mat 1 1) 0 1 1 5 (by norm_num)).2.1 (by simp)

/-- C10, counterexample to the claim as stated: at `tol = 1` with the
singular `R = 0` the call fails with the singularity error from the
initial `solve(R, C)`, not with the unbound-variable error the claim
asserts for every `tol ≥ 1`. -/
theorem claim_C10_counterexample :
    doubleo (0 : Mat 1 1) (0 : Mat 1 1) 0 0 1 5 = some (.error .singular) ∧
    Err.singular ≠ Err.nameError := by
  refine ⟨doubleo_singular (0 : Mat 1 1) (0 : Mat 1 1) 0 0 1 5 (by simp), by decide⟩

/-- C1 (code bug): the fallback loop's `break` condition is inverted.
The first two conjuncts are the loop's exact behaviour: exhausting the
budget raises the iteration-limit error naming `max_iter`, and a pass
*returns* `(f1, p1)` precisely when the metric `max (f1 - f0)` is
*greater* than `tol`, recursing when it is within tolerance — the
opposite of the claim.  The last conjunct evaluates `olrp` on the
fallback input `beta = 1`, `A = B = Q = 1`, `R = 0`, `W = None`,
`max_iter = 2`: the iteration sits on the exact fixed point
`(F, P) = (1, 1)` with metric `0 ≤ tol` on every pass (`olrp_pass1`,
`olrp_pass2`), yet the call raises `IterationLimitExceeded(2)` instead
of returning the converged pair. -/
theorem claim_C1 :
    (∀ (m k : ℕ) (beta tol : ℚ) (A : Mat (m + 1) (m + 1)) (B : Mat (m + 1) (k + 1))
      (Q : Mat (m + 1) (m + 1)) (R : Mat (k + 1) (k + 1)) (W : Mat (m + 1) (k + 1))
      (mi : ℕ) (p0 : Mat (m + 1) (m + 1)),
      olrpLoop beta tol A B Q R W mi 0 p0 = .error (.iterationLimit mi)) ∧
    (∀ (m k : ℕ) (beta tol : ℚ) (A : Mat (m + 1) (m + 1)) (B : Mat (m + 1) (k + 1))
      (Q : Mat (m + 1) (m + 1)) (R : Mat (k + 1) (k + 1)) (W : Mat (m + 1) (k + 1))
      (mi r : ℕ) (p0 : Mat (m + 1) (m + 1)),
      olrpLoop beta tol A B Q R W mi (r + 1) p0 = (do
        let f0 ← solve (R + beta • (Bᵀ * p0 * B)) (beta • (Bᵀ * p0 * A) + Wᵀ)
        let p1 := beta • (Aᵀ * p0 * A) + Q - (beta • (Aᵀ * p0 * B) + W) * f0
        let f1 ← solve (R + beta • (Bᵀ * p1 * B)) (beta • (Bᵀ * p1 * A) + Wᵀ)
        if maxEntry (f1 - f0) > tol then pure (f1, p1)
        else olrpLoop beta tol A B Q R W mi r p1)) ∧
    olrp 0 1 1 (1 : Mat 1 1) (1 : Mat 1 1) (1 : Mat 1 1) (0 : Mat 1 1) none ((1 : ℚ) / 10 ^ 6)
      2 7 = some (.error (.iterationLimit 2)) := by
  refine ⟨fun m k beta tol A B Q R W mi p0 => olrpLoop_zero beta tol A B Q R W mi p0,
    fun m k beta tol A B Q R W mi r p0 => olrpLoop_succ beta tol A B Q R W mi r p0, ?_⟩
  rw [olrp_fallback_eq _ _ _ _ _ _ _ _ _ _ _ (by norm_num)]
  simp only [Option.getD_none]
  rw [olrp_pass1, olrp_pass2]

/-- C5: whenever the reported largest eigenvalue modulus of `R` exceeds
`1e-5`, `olrp` takes the primary branch: it forms
`A~ = sqrt(beta) * (A - B * solve(R, Wᵀ))`, `B~ = sqrt(beta) * B`,
`Q~ = Q - W * solve(R, Wᵀ)`, calls the Riccati doubler as
`doubleo(A~ᵀ, B~ᵀ, Q~, R)` (with its default tolerance `1e-15`), and
returns `F = Kᵀ + solve(R, Wᵀ)` and `P = S` from the doubler's result
`(K, S)` — errors of the solve or the doubler propagating unchanged. -/
theorem claim_C5 {m k : ℕ} (eigRmax sqbeta beta : ℚ) (A : Mat (m + 1) (m + 1))
    (B : Mat (m + 1) (k + 1)) (Q : Mat (m + 1) (m + 1)) (R : Mat (k + 1) (k + 1))
    (W? : Option (Mat (m + 1) (k + 1))) (tol : ℚ) (max_iter fuel : ℕ)
    (h : eigRmax > (1 : ℚ) / 10 ^ 5) :
    olrp eigRmax sqbeta beta A B Q R W? tol max_iter fuel =
      match solve R ((W?.getD 0)ᵀ) with
      | .error e => some (.error e)
      | .ok s =>
        match doubleo ((sqbeta • (A - B * s))ᵀ) ((sqbeta • B)ᵀ) (Q - (W?.getD 0) * s) R
            ((1 : ℚ) / 10 ^ 15) fuel with
        | none => none
        | some (.error e) => some (.error e)
        | some (.ok ks) => some (.ok ((ks.1)ᵀ + s, ks.2)) :=
  olrp_primary_eq eigRmax sqbeta beta A B Q R W? tol max_iter fuel h

/-- C5, witness: on the scalar input `A = B = Q = 0`, `R = 1`,
`eigRmax = 1 > 1e-5`, the primary branch runs to completion and
returns `(F, P) = (0, 0)`. -/
theorem claim_C5_witness :
    olrp 1 1 1 (0 : Mat 1 1) (0 : Mat 1 1) (0 : Mat 1 1) (1 : Mat 1 1) none ((1 : ℚ) / 10 ^ 6)
      5 1 = some (.ok (0, 0)) := by
  rw [claim_C5 _ _ _ _ _ _ _ _ _ _ _ (by norm_num)]
  simp only [Option.getD_none, Matrix.transpose_zero, solve_one]
  simp only [mul_zero, sub_zero, one_smul, Matrix.transpose_zero, smul_zero]
  rw [doubleo_eq _ _ _ _ _ _ (by simp), if_pos (by norm_num)]
  simp only [Matrix.transpose_zero, linSolve_zero, Matrix.zero_mul, mul_zero]
  rw [doubleoLoop_run_zero ((1 : ℚ) / 10 ^ 15) (by norm_num)]
  simp

/-- C6 (amended): for every `R` whose reported largest eigenvalue
modulus is at most `1e-5` — in particular the all-zero matrix, whose
only eigenvalue is `0` — `olrp` takes the fallback value-iteration
branch with `P0 = -0.1` times the identity, and performs no solve
against `R` itself on the way there: the equation below holds for every
`R`, singular ones included, so no singularity error can arise from the
branch selection or the initialization. -/
theorem claim_C6 {m k : ℕ} (eigRmax sqbeta beta : ℚ) (A : Mat (m + 1) (m + 1))
    (B : Mat (m + 1) (k + 1)) (Q : Mat (m + 1) (m + 1)) (R : Mat (k + 1) (k + 1))
    (W? : Option (Mat (m + 1) (k + 1))) (tol : ℚ) (max_iter fuel : ℕ)
    (h : eigRmax ≤ (1 : ℚ) / 10 ^ 5) :
    olrp eigRmax sqbeta beta A B Q R W? tol max_iter fuel =
      some (olrpLoop beta tol A B Q R (W?.getD 0) max_iter max_iter
        ((-(1 / 10) : ℚ) • (1 : Mat (m + 1) (m + 1)))) :=
  olrp_fallback_eq eigRmax sqbeta beta A B Q R W? tol max_iter fuel h

/-- C6, witness: on the fallback input of C1 (`R = 0`, whose largest
eigenvalue modulus is `0 ≤ 1e-5`) `olrp` is exactly the value iteration
started at `-0.1` times the identity. -/
theorem claim_C6_witness :
    olrp 0 1 1 (1 : Mat 1 1) (1 : Mat 1 1) (1 : Mat 1 1) (0 : Mat 1 1) none ((1 : ℚ) / 10 ^ 6)
      2 7 = some (olrpLoop 1 ((1 : ℚ) / 10 ^ 6) (1 : Mat 1 1) (1 : Mat 1 1) (1 : Mat 1 1)
        (0 : Mat 1 1) (0 : Mat 1 1) 2 2 ((-(1 / 10) : ℚ) • 1)) := by
  have h := claim_C6 0 1 1 (1 : Mat 1 1) (1 : Mat 1 1) (1 : Mat 1 1) (0 : Mat 1 1) none
    ((1 : ℚ) / 10 ^ 6) 2 7 (by norm_num)
  simpa using h

/-- C6, counterexample to the claim as stated: `R = diag(1, 0)` is
singular (`det R = 0`), but its largest eigenvalue modulus is `1`,
which exceeds `1e-5`, so `olrp` takes the *primary* branch and the very
first solve against `R` raises the singularity error — it neither takes
the fallback branch nor avoids a singularity error. -/
theorem claim_C6_counterexample :
    (!![1, 0; 0, 0] : Mat 2 2).det = 0 ∧
    eigAbsMaxValid (!![1, 0; 0, 0] : Mat 2 2) 1 ∧
    olrp 1 1 1 (1 : Mat 2 2) (1 : Mat 2 2) (1 : Mat 2 2) (!![1, 0; 0, 0] : Mat 2 2) none
      ((1 : ℚ) / 10 ^ 6) 1000 3 = some (.error .singular) := by
  refine ⟨Rbad_det, Rbad_eigmax, ?_⟩
  rw [olrp_primary_eq _ _ _ _ _ _ _ _ _ _ _ (by norm_num)]
  simp [solve_of_det_eq _ _ Rbad_det]

/-- C7: calling `olrp` with `max_iter = 0` on any input selecting the
fallback branch raises `IterationLimitExceeded(0)` immediately; the
equation holds for every `R`, `B`, `Q` — including ones on which any
solve in the loop body would fail — so no linear solve is attempted. -/
theorem claim_C7 {m k : ℕ} (eigRmax sqbeta beta : ℚ) (A : Mat (m + 1) (m + 1))
    (B : Mat (m + 1) (k + 1)) (Q : Mat (m + 1) (m + 1)) (R : Mat (k + 1) (k + 1))
    (W? : Option (Mat (m + 1) (k + 1))) (tol : ℚ) (fuel : ℕ)
    (h : eigRmax ≤ (1 : ℚ) / 10 ^ 5) :
    olrp eigRmax sqbeta beta A B Q R W? tol 0 fuel = some (.error (.iterationLimit 0)) := by
  rw [olrp_fallback_eq _ _ _ _ _ _ _ _ _ _ _ h]
  rfl

/-- C7, witness: the immediate raise at a concrete all-zero input with
singular `R = 0`, where any attempted solve would have raised a
different error. -/
theorem claim_C7_witness :
    olrp 0 1 1 (0 : Mat 1 1) (0 : Mat 1 1) (0 : Mat 1 1) (0 : Mat 1 1) none ((1 : ℚ) / 10 ^ 6)
      0 3 = some (.error (.iterationLimit 0)) :=
  claim_C7 0 1 1 (0 : Mat 1 1) (0 : Mat 1 1) (0 : Mat 1 1) (0 : Mat 1 1) none
    ((1 : ℚ) / 10 ^ 6) 3 (by norm_num)

end KillerGraph
